import Mathlib

/-
Verification of the anomaly-detection core in advanced_anomaly_detector.py
(class AdvancedAnomalyDetector).

Shallow embedding conventions:
- Python floats are modelled as rationals (exact arithmetic).
- A Python dict holding a per-process record is modelled as a structure whose
  five numeric entries are Option-valued: `none` models an absent key, so a
  direct dict access `proc[k]` is a fallible operation (KeyError on `none`).
- Exceptions are modelled with `Except PyErr`: a function returning
  `Except PyErr A` models Python code that can raise past its caller, while a
  function returning a plain value models code whose exceptions are all caught
  internally (as in `detect_anomalies`, whose body sits inside try/except).
- The sklearn StandardScaler state after `fit` is a per-dimension mean and
  scale, and `transform` is (x - mean) / scale applied per dimension;
  `transform` on an empty batch raises (sklearn rejects 0-sample arrays).
  The numerical values that `fit` produces, and the keras autoencoder produced
  by `build_autoencoder` / trained by `Model.fit` (a nondeterministic,
  external computation), are supplied by a `TrainEnv` parameter; the
  deterministic orchestration around them is translated line by line from
  `train_model`.
- numpy's default-interpolation percentile is embedded exactly over ℚ.
-/

attribute [local semireducible] Rat.mul Rat.inv Rat.add Rat.sub

/-- Python exception kinds that the detector code can raise internally. -/
inductive PyErr where
  | keyError
  | valueError
  | typeError
  | trainingFailed
deriving DecidableEq

instance {ε α : Type} [DecidableEq ε] [DecidableEq α] : DecidableEq (Except ε α) := fun a b =>
  match a, b with
  | .ok x, .ok y =>
    if h : x = y then isTrue (by rw [h]) else isFalse (by intro hh; cases hh; exact h rfl)
  | .error x, .error y =>
    if h : x = y then isTrue (by rw [h]) else isFalse (by intro hh; cases hh; exact h rfl)
  | .ok _, .error _ => isFalse (fun h => Except.noConfusion h)
  | .error _, .ok _ => isFalse (fun h => Except.noConfusion h)

/-- Fixed 5-dimensional feature vector, in the order
[cpu_percent, memory_percent, num_threads, num_connections, num_files]
shared by training and inference (prepare_training_data, detect_anomalies). -/
structure Vec5 where
  x0 : ℚ
  x1 : ℚ
  x2 : ℚ
  x3 : ℚ
  x4 : ℚ
deriving DecidableEq

/-- One per-process record (a Python dict). The five numeric entries are
Option-valued: `none` models a key that is absent from the dict. -/
structure ProcRecord where
  pid : Int := 0
  name : String := ""
  cpu_percent : Option ℚ := none
  memory_percent : Option ℚ := none
  num_threads : Option ℚ := none
  num_connections : Option ℚ := none
  num_files : Option ℚ := none
  anomaly_reason : Option String := none
deriving DecidableEq

/-- A snapshot: the list of records collected at one poll. -/
abbrev Snapshot := List ProcRecord

/-- All five numeric keys are present in the record. -/
def hasAllFields (p : ProcRecord) : Bool :=
  p.cpu_percent.isSome && p.memory_percent.isSome && p.num_threads.isSome &&
    p.num_connections.isSome && p.num_files.isSome

/-- The row [proc[cpu_percent], proc[memory_percent], proc[num_threads],
proc[num_connections], proc[num_files]] built by direct dict indexing, as in
prepare_training_data and detect_anomalies; raises KeyError if any of the
five keys is absent. -/
def extractFeatures (p : ProcRecord) : Except PyErr Vec5 :=
  match p.cpu_percent, p.memory_percent, p.num_threads, p.num_connections, p.num_files with
  | some c, some m, some t, some n, some f => .ok ⟨c, m, t, n, f⟩
  | _, _, _, _, _ => .error .keyError

/-- Modelled from the spec: the FeatureExtractor contract of section 4.2,
which says `extract` is total and defaults any missing numeric field to 0.
This is the spec-side definition that claim C4 compares against
`extractFeatures`, the extraction the source actually performs. -/
def extractSpec (p : ProcRecord) : Vec5 :=
  ⟨p.cpu_percent.getD 0, p.memory_percent.getD 0, p.num_threads.getD 0,
    p.num_connections.getD 0, p.num_files.getD 0⟩

/-- The row-building loop shared by prepare_training_data and
detect_anomalies: one row per record, stopping with KeyError at the first
record that lacks one of the five keys. -/
def rowsOf : List ProcRecord → Except PyErr (List Vec5)
  | [] => .ok []
  | p :: rest => do
    let v ← extractFeatures p
    let vs ← rowsOf rest
    return v :: vs

/-- Insert into a ≤-sorted list, keeping it sorted. -/
def insertSorted (x : ℚ) : List ℚ → List ℚ
  | [] => [x]
  | y :: ys => if x ≤ y then x :: y :: ys else y :: insertSorted x ys

/-- Ascending sort, as numpy sorts the data before interpolating a
percentile. -/
def sortAsc (xs : List ℚ) : List ℚ := xs.foldr insertSorted []

/-- Floor of a nonnegative rational, as a natural number. -/
def floorNonneg (q : ℚ) : ℕ := q.num.toNat / q.den

/-- numpy.percentile with the default linear interpolation: for the sorted
data s of length n, the virtual index is h = (n-1)*q/100 and the result is
s[⌊h⌋] + (h - ⌊h⌋)·(s[⌊h⌋+1] - s[⌊h⌋]). -/
def np_percentile (xs : List ℚ) (q : ℚ) : ℚ :=
  let s := sortAsc xs
  let h : ℚ := ((xs.length : ℚ) - 1) * q / 100
  let i : ℕ := floorNonneg h
  s.getD i 0 + (h - (i : ℚ)) * (s.getD (i + 1) 0 - s.getD i 0)

/-- Per-row reconstruction error: np.mean(np.square(a - b), axis=1) for one
row, i.e. the mean of the five squared componentwise differences. -/
def rowMSE (a b : Vec5) : ℚ :=
  ((a.x0 - b.x0) ^ 2 + (a.x1 - b.x1) ^ 2 + (a.x2 - b.x2) ^ 2 +
    (a.x3 - b.x3) ^ 2 + (a.x4 - b.x4) ^ 2) / 5

/-- State of a fitted sklearn StandardScaler: per-dimension mean and scale. -/
structure ScalerState where
  mean : Vec5
  scale : Vec5
deriving DecidableEq

/-- StandardScaler.transform on one row: (x - mean) / scale per dimension. -/
def ScalerState.transform (s : ScalerState) (v : Vec5) : Vec5 :=
  ⟨(v.x0 - s.mean.x0) / s.scale.x0, (v.x1 - s.mean.x1) / s.scale.x1,
    (v.x2 - s.mean.x2) / s.scale.x2, (v.x3 - s.mean.x3) / s.scale.x3,
    (v.x4 - s.mean.x4) / s.scale.x4⟩

/-- StandardScaler.transform on a batch; sklearn validation raises
ValueError on an array with 0 samples. -/
def ScalerState.transformRows (s : ScalerState) (rows : List Vec5) : Except PyErr (List Vec5) :=
  if rows.isEmpty then .error .valueError else .ok (rows.map s.transform)

/-- A keras autoencoder, abstracted to its row-wise predict function. -/
structure AE where
  predict : Vec5 → Vec5

/-- Detector state: the mutable fields of AdvancedAnomalyDetector. -/
structure AdvancedAnomalyDetector where
  history_size : ℕ
  process_history : List Snapshot
  scaler : ScalerState
  autoencoder : Option AE
  is_trained : Bool
  reconstruction_threshold : Option ℚ

/-- Append on collections.deque with maxlen: add on the right and drop from
the left whatever exceeds the bound. -/
def dequeAppend (maxlen : ℕ) (h : List Snapshot) (x : Snapshot) : List Snapshot :=
  (h ++ [x]).drop (h.length + 1 - maxlen)

/-- A sequence of update_history calls whose collected snapshots are xs:
fold the bounded append over them. -/
def appendAll (maxlen : ℕ) (init : List Snapshot) (xs : List Snapshot) : List Snapshot :=
  xs.foldl (dequeAppend maxlen) init

/-- prepare_training_data: None for an empty history, otherwise one row per
record across all retained snapshots, in snapshot-then-within-snapshot
order. The row building indexes the dicts directly, so a record lacking one
of the five keys raises KeyError out of this function. -/
def prepare_training_data (st : AdvancedAnomalyDetector) : Except PyErr (Option (List Vec5)) :=
  if st.process_history.isEmpty then .ok none
  else do
    let rows ← rowsOf st.process_history.flatten
    return some rows

/-- Outcomes of the external numeric library calls made by train_model:
what StandardScaler.fit computes on the corpus (or the exception it
raises), the freshly built keras model of build_autoencoder, and what
Model.fit turns that model into (or, on a numerical failure mid-training,
the exception together with the model left behind by the in-place fit). -/
structure TrainEnv where
  fitScaler : List Vec5 → Except PyErr ScalerState
  buildAE : AE
  fitAE : AE → List Vec5 → Except (AE × PyErr) AE

/-- Body of the try-block of train_model, translated statement by
statement; each caught exception produces (state-so-far, false), mirroring
the except-branch that logs and returns False. -/
def trainTry (env : TrainEnv) (st : AdvancedAnomalyDetector) (data : List Vec5) :
    AdvancedAnomalyDetector × Bool :=
  match env.fitScaler data with
  | .error _ => (st, false)
  | .ok sc =>
    let scaled := data.map sc.transform
    let st1 := { st with scaler := sc }
    match env.fitAE env.buildAE scaled with
    | .error (aeMid, _) => ({ st1 with autoencoder := some aeMid }, false)
    | .ok ae =>
      let st2 := { st1 with autoencoder := some ae }
      let reconstructed := scaled.map ae.predict
      let errors := List.zipWith rowMSE scaled reconstructed
      if errors.isEmpty then (st2, false)
      else
        let thr := np_percentile errors 95
        ({ st2 with reconstruction_threshold := some thr, is_trained := true }, true)

/-- train_model: the insufficient-data check runs before the try-block (so
a KeyError from prepare_training_data propagates to the caller), then the
try-block runs with every internal exception caught. -/
def train_model (env : TrainEnv) (st : AdvancedAnomalyDetector) :
    Except PyErr (AdvancedAnomalyDetector × Bool) := do
  let dataOpt ← prepare_training_data st
  match dataOpt with
  | none => return (st, false)
  | some data =>
    if data.length < st.history_size then return (st, false)
    else return trainTry env st data

/-- get_anomaly_reason: all five rule conditions are read from the dict
unconditionally, so a record lacking any of the five keys raises KeyError;
otherwise the texts of the triggered rules are joined with ", " in the
fixed source order, and "Unusual behavior pattern" stands in when none
triggers. -/
def get_anomaly_reason (p : ProcRecord) : Except PyErr String :=
  match p.cpu_percent, p.memory_percent, p.num_connections, p.num_threads, p.num_files with
  | some c, some m, some n, some t, some f =>
    let reasons : List String :=
      (if c > 80 then ["High CPU usage"] else []) ++
      (if m > 80 then ["High memory usage"] else []) ++
      (if n > 50 then ["Unusual network activity"] else []) ++
      (if t > 100 then ["High thread count"] else []) ++
      (if f > 100 then ["Many open files"] else [])
    .ok (if reasons.isEmpty then "Unusual behavior pattern" else String.intercalate ", " reasons)
  | _, _, _, _, _ => .error .keyError

/-- Modelled from the spec: the ReasonAttributor rule table of section 4.7
as claim C9 words it — five independent rules evaluated on the numeric
fields, the texts of the holding rules joined by ", " in the fixed order,
and "Unusual behavior pattern" when none holds. -/
def specRules (c m n t f : ℚ) : List (Bool × String) :=
  [(decide (c > 80), "High CPU usage"),
   (decide (m > 80), "High memory usage"),
   (decide (n > 50), "Unusual network activity"),
   (decide (t > 100), "High thread count"),
   (decide (f > 100), "Many open files")]

/-- Modelled from the spec: join of the triggered rule texts (see
specRules), with the fallback reason when no rule triggers. -/
def explainSpec (c m n t f : ℚ) : String :=
  let fired := ((specRules c m n t f).filter (fun r => r.1)).map (fun r => r.2)
  if fired = [] then "Unusual behavior pattern" else String.intercalate ", " fired

/-- The flagging loop of detect_anomalies: walk the (record, error) pairs
in input order, and for each error strictly above the threshold attach the
attributed reason to the record and emit it. A KeyError from
get_anomaly_reason propagates out of the loop (into the surrounding
try/except). -/
def detectLoop (t : ℚ) : List (ProcRecord × ℚ) → Except PyErr (List ProcRecord)
  | [] => .ok []
  | (p, e) :: rest =>
    if e > t then do
      let reason ← get_anomaly_reason p
      let tail ← detectLoop t rest
      return { p with anomaly_reason := some reason } :: tail
    else
      detectLoop t rest

/-- Body of the try-block of detect_anomalies: build the rows, standardize,
reconstruct, take per-row errors, and run the flagging loop. Comparing an
error against a None threshold raises TypeError, as in Python 3. -/
def detectBody (sc : ScalerState) (ae : AE) (thr : Option ℚ)
    (processes : List ProcRecord) : Except PyErr (List ProcRecord) := do
  let rows ← rowsOf processes
  let scaled ← sc.transformRows rows
  let reconstructed := scaled.map ae.predict
  let errors := List.zipWith rowMSE scaled reconstructed
  match thr with
  | none => if errors.isEmpty then return [] else .error .typeError
  | some t => detectLoop t (processes.zip errors)

/-- detect_anomalies: an untrained detector (or a missing model) short-
circuits to []; otherwise the body runs inside try/except and any exception
collapses to [] as well, so the function as a whole never raises. -/
def detect_anomalies (st : AdvancedAnomalyDetector) (processes : List ProcRecord) :
    List ProcRecord :=
  match st.is_trained, st.autoencoder with
  | true, some ae =>
    match detectBody st.scaler ae st.reconstruction_threshold processes with
    | .ok anomalies => anomalies
    | .error _ => []
  | _, _ => []

/-- Forget the anomaly_reason annotation of a record, leaving the
measurement fields; detect_anomalies only ever adds this annotation. -/
def eraseReason (p : ProcRecord) : ProcRecord := { p with anomaly_reason := none }

/-- Reconstruction error of a single feature vector under a given scaler
and model: the anomaly score detect_anomalies computes per record. -/
def recordError (sc : ScalerState) (ae : AE) (v : Vec5) : ℚ :=
  rowMSE (sc.transform v) (ae.predict (sc.transform v))

/-- Per-row reconstruction errors of a corpus under a scaler and a model:
standardize the corpus, reconstruct it, and take the per-row MSE. -/
def reconstructionErrors (sc : ScalerState) (ae : AE) (data : List Vec5) : List ℚ :=
  let scaled := data.map sc.transform
  List.zipWith rowMSE scaled (scaled.map ae.predict)

def wRec : ProcRecord :=
  { pid := 1, name := "proc", cpu_percent := some 5, memory_percent := some 5,
    num_threads := some 2, num_connections := some 1, num_files := some 3 }

def recNoCpu : ProcRecord :=
  { pid := 2, name := "ghost", memory_percent := some 1,
    num_threads := some 1, num_connections := some 1, num_files := some 1 }

def scIdent : ScalerState := { mean := ⟨0, 0, 0, 0, 0⟩, scale := ⟨1, 1, 1, 1, 1⟩ }

def scShift : ScalerState := { mean := ⟨1, 1, 1, 1, 1⟩, scale := ⟨1, 1, 1, 1, 1⟩ }

def aeZero : AE := ⟨fun _ => ⟨0, 0, 0, 0, 0⟩⟩

def cexEnv : TrainEnv :=
  { fitScaler := fun _ => .ok scShift, buildAE := aeZero,
    fitAE := fun _ _ => .error (aeZero, .trainingFailed) }

def cexSt : AdvancedAnomalyDetector :=
  { history_size := 1, process_history := [[wRec]], scaler := scIdent,
    autoencoder := none, is_trained := false, reconstruction_threshold := none }

def okEnv : TrainEnv :=
  { fitScaler := fun _ => .ok scIdent, buildAE := aeZero,
    fitAE := fun _ _ => .ok aeZero }

def okSt : AdvancedAnomalyDetector :=
  { history_size := 1, process_history := [[wRec]], scaler := scIdent,
    autoencoder := some aeZero, is_trained := true,
    reconstruction_threshold := some (64/5) }

def trainedSt : AdvancedAnomalyDetector :=
  { history_size := 1, process_history := [[wRec]], scaler := scIdent,
    autoencoder := some aeZero, is_trained := true, reconstruction_threshold := some 1 }

def hotRec : ProcRecord :=
  { pid := 3, name := "hot", cpu_percent := some 95, memory_percent := some 0,
    num_threads := some 0, num_connections := some 0, num_files := some 0 }

def coldRec : ProcRecord :=
  { pid := 4, name := "cold", cpu_percent := some 0, memory_percent := some 0,
    num_threads := some 0, num_connections := some 0, num_files := some 0 }

def cexStAfter : AdvancedAnomalyDetector :=
  { cexSt with scaler := scShift, autoencoder := some aeZero }

def cexSt3 : AdvancedAnomalyDetector :=
  { history_size := 1, process_history := [[recNoCpu]], scaler := scIdent,
    autoencoder := none, is_trained := false, reconstruction_threshold := none }

def emptySt : AdvancedAnomalyDetector :=
  { history_size := 100, process_history := [], scaler := scIdent,
    autoencoder := none, is_trained := false, reconstruction_threshold := none }

def scenarioD : ProcRecord :=
  { pid := 9, name := "d", cpu_percent := some 95, memory_percent := some 90,
    num_threads := some 2, num_connections := some 60, num_files := some 3 }

theorem except_bind_ok {ε α β : Type} (a : α) (f : α → Except ε β) :
    ((Except.ok a : Except ε α) >>= f) = f a := rfl

theorem except_bind_error {ε α β : Type} (e : ε) (f : α → Except ε β) :
    ((Except.error e : Except ε α) >>= f) = .error e := rfl

theorem except_pure {ε α : Type} (a : α) : (pure a : Except ε α) = .ok a := rfl

theorem extractFeatures_complete (p : ProcRecord) (h : hasAllFields p = true) :
    extractFeatures p = .ok (extractSpec p) := by
  obtain ⟨pid, nm, c, m, t, n, f, r⟩ := p
  simp only [hasAllFields, Bool.and_eq_true, Option.isSome_iff_exists] at h
  obtain ⟨⟨⟨⟨⟨cv, hc⟩, ⟨mv, hm⟩⟩, ⟨tv, ht⟩⟩, ⟨nv, hn⟩⟩, ⟨fv, hf⟩⟩ := h
  subst hc hm ht hn hf
  rfl

theorem rowsOf_complete (ps : List ProcRecord) (h : ∀ p ∈ ps, hasAllFields p = true) :
    rowsOf ps = .ok (ps.map extractSpec) := by
  induction ps with
  | nil => rfl
  | cons p rest ih =>
    have hp := extractFeatures_complete p (h p (List.mem_cons_self p rest))
    have hr := ih (fun q hq => h q (List.mem_cons_of_mem p hq))
    simp [rowsOf, hp, hr, except_bind_ok, except_pure]

theorem get_anomaly_reason_complete (p : ProcRecord) (h : hasAllFields p = true) :
    ∃ s, get_anomaly_reason p = .ok s := by
  obtain ⟨pid, nm, c, m, t, n, f, r⟩ := p
  simp only [hasAllFields, Bool.and_eq_true, Option.isSome_iff_exists] at h
  obtain ⟨⟨⟨⟨⟨cv, hc⟩, ⟨mv, hm⟩⟩, ⟨tv, ht⟩⟩, ⟨nv, hn⟩⟩, ⟨fv, hf⟩⟩ := h
  subst hc hm ht hn hf
  exact ⟨_, rfl⟩

theorem zipWith_map_same {α β γ : Type} (f : β → β → γ) (g : α → β) (k : β → β)
    (l : List α) :
    List.zipWith f (l.map g) ((l.map g).map k) = l.map (fun x => f (g x) (k (g x))) := by
  induction l with
  | nil => rfl
  | cons x xs ih => simp [ih]

theorem detectLoop_filter (t : ℚ) (f : ProcRecord → ℚ) (ps : List ProcRecord)
    (h : ∀ p ∈ ps, hasAllFields p = true) :
    ∃ out, detectLoop t (ps.zip (ps.map f)) = .ok out ∧
      out.map eraseReason =
        (ps.filter (fun p => decide (f p > t))).map eraseReason := by
  induction ps with
  | nil => exact ⟨[], rfl, rfl⟩
  | cons p rest ih =>
    obtain ⟨out, hout, herase⟩ := ih (fun q hq => h q (List.mem_cons_of_mem p hq))
    obtain ⟨s, hs⟩ := get_anomaly_reason_complete p (h p (List.mem_cons_self p rest))
    simp only [List.zip] at hout
    by_cases hft : f p > t
    · refine ⟨{ p with anomaly_reason := some s } :: out, ?_, ?_⟩
      · simp [detectLoop, List.zip, hft, hs, hout, except_bind_ok, except_pure]
      · simp [hft, herase, eraseReason]
    · refine ⟨out, ?_, ?_⟩
      · simp [detectLoop, List.zip, hft, hout]
      · simp [hft, herase]

theorem detect_eq_body (st : AdvancedAnomalyDetector) (ae : AE)
    (h1 : st.is_trained = true) (h2 : st.autoencoder = some ae) (ps : List ProcRecord) :
    detect_anomalies st ps =
      match detectBody st.scaler ae st.reconstruction_threshold ps with
      | .ok anomalies => anomalies
      | .error _ => [] := by
  obtain ⟨H, hist, sc, aeo, tr, thro⟩ := st
  dsimp only at h1 h2 ⊢
  subst h1
  subst h2
  rfl

/-- C1: for a detector in the Trained state (with its paired model and a
calibrated threshold), detect_anomalies returns, in input order, exactly
the input records whose reconstruction error under the stored scaler and
model is strictly greater than the threshold — up to the anomaly_reason
annotation it attaches to each flagged record. -/
theorem detect_flags_exactly_errors_above_threshold
    (st : AdvancedAnomalyDetector) (ae : AE) (t : ℚ) (ps : List ProcRecord)
    (h1 : st.is_trained = true) (h2 : st.autoencoder = some ae)
    (h3 : st.reconstruction_threshold = some t)
    (h4 : ∀ p ∈ ps, hasAllFields p = true) :
    (detect_anomalies st ps).map eraseReason =
      (ps.filter (fun p =>
        decide (recordError st.scaler ae (extractSpec p) > t))).map eraseReason := by
  rw [detect_eq_body st ae h1 h2, h3]
  cases ps with
  | nil => rfl
  | cons p rest =>
    have hrows : rowsOf (p :: rest) = .ok ((p :: rest).map extractSpec) :=
      rowsOf_complete _ h4
    obtain ⟨out, hout, herase⟩ := detectLoop_filter t
      (fun q => recordError st.scaler ae (extractSpec q)) (p :: rest) h4
    have hbody : detectBody st.scaler ae (some t) (p :: rest) = .ok out := by
      unfold detectBody
      rw [hrows, except_bind_ok]
      have htrans : st.scaler.transformRows ((p :: rest).map extractSpec) =
          .ok (((p :: rest).map extractSpec).map st.scaler.transform) := by
        simp [ScalerState.transformRows]
      rw [htrans, except_bind_ok]
      have herrs : List.zipWith rowMSE (((p :: rest).map extractSpec).map st.scaler.transform)
          ((((p :: rest).map extractSpec).map st.scaler.transform).map ae.predict) =
          (p :: rest).map (fun q => recordError st.scaler ae (extractSpec q)) := by
        rw [List.map_map]
        rw [zipWith_map_same rowMSE (st.scaler.transform ∘ extractSpec) ae.predict]
        rfl
      dsimp only
      rw [herrs]
      exact hout
    rw [hbody]
    exact herase

/-- C7: detect_anomalies called on an untrained detector returns the empty
list for every input; since the function is total in the embedding (its
whole body runs inside try/except), it never raises. -/
theorem detect_untrained_returns_empty
    (st : AdvancedAnomalyDetector) (ps : List ProcRecord)
    (h : st.is_trained = false) : detect_anomalies st ps = [] := by
  obtain ⟨H, hist, sc, aeo, tr, thro⟩ := st
  dsimp only at h
  subst h
  cases aeo <;> rfl

/-- C10: detect_anomalies on an empty input collection returns the empty
list in every detector state, trained included: the sklearn transform of a
0-sample batch raises, the try/except absorbs it, and the result collapses
to the same empty list as a zero-anomaly report. -/
theorem detect_empty_input_returns_empty (st : AdvancedAnomalyDetector) :
    detect_anomalies st [] = [] := by
  obtain ⟨H, hist, sc, aeo, tr, thro⟩ := st
  cases tr <;> cases aeo <;> rfl

theorem dequeAppend_length (H : ℕ) (h : List Snapshot) (x : Snapshot) :
    (dequeAppend H h x).length = min (h.length + 1) H := by
  simp [dequeAppend]
  omega

theorem appendAll_eq_drop (H : ℕ) (xs : List Snapshot) (init : List Snapshot)
    (hinit : init.length ≤ H) :
    appendAll H init xs = (init ++ xs).drop (init.length + xs.length - H) := by
  induction xs generalizing init with
  | nil =>
    have h0 : init.length + ([] : List Snapshot).length - H = 0 := by simp; omega
    simp only [appendAll, List.foldl_nil, List.append_nil, h0, List.drop_zero]
  | cons x xs ih =>
    have hlen : (dequeAppend H init x).length ≤ H := by
      rw [dequeAppend_length]; omega
    have hstep := ih (dequeAppend H init x) hlen
    have hfold : appendAll H init (x :: xs) = appendAll H (dequeAppend H init x) xs := rfl
    rw [hfold, hstep, dequeAppend_length]
    unfold dequeAppend
    rw [← List.drop_append_of_le_length (by simp)]
    rw [List.drop_drop]
    have harith : init.length + 1 - H + (min (init.length + 1) H + xs.length - H) =
        init.length + (x :: xs).length - H := by
      simp only [List.length_cons]; omega
    rw [harith]
    simp [List.append_assoc]

theorem appendAll_length_le (H : ℕ) (xs : List Snapshot) :
    (appendAll H [] xs).length ≤ H := by
  rw [appendAll_eq_drop H xs [] (by simp)]
  simp
  omega

/-- C8: the history window, fed through the bounded deque append starting
empty, never exceeds the capacity H; and after H+1 appends (one snapshot
s0 followed by H further snapshots) the window is exactly the last H
appends, so the first-appended snapshot is gone and the last-appended one
is present. -/
theorem history_window_capacity_fifo (H : ℕ) (s0 sLast : Snapshot) (mid : List Snapshot)
    (hmid : mid.length + 1 = H) (h0mid : s0 ∉ mid) (h0last : s0 ≠ sLast) :
    (∀ xs : List Snapshot, (appendAll H [] xs).length ≤ H) ∧
    appendAll H [] (s0 :: (mid ++ [sLast])) = mid ++ [sLast] ∧
    s0 ∉ appendAll H [] (s0 :: (mid ++ [sLast])) ∧
    sLast ∈ appendAll H [] (s0 :: (mid ++ [sLast])) := by
  have hwin : appendAll H [] (s0 :: (mid ++ [sLast])) = mid ++ [sLast] := by
    rw [appendAll_eq_drop H _ [] (by simp)]
    have h1 : ([] : List Snapshot).length + (s0 :: (mid ++ [sLast])).length - H = 1 := by
      simp
      omega
    rw [h1]
    rfl
  refine ⟨fun xs => appendAll_length_le H xs, hwin, ?_, ?_⟩
  · rw [hwin]
    intro hmem
    rcases List.mem_append.mp hmem with hm | hl
    · exact h0mid hm
    · exact h0last (List.mem_singleton.mp hl)
  · rw [hwin]
    exact List.mem_append_right mid (List.mem_singleton.mpr rfl)

theorem fifo_claim_witness :
    (∀ xs : List Snapshot, (appendAll 2 [] xs).length ≤ 2) ∧
    appendAll 2 [] (([] : Snapshot) :: ([[wRec]] ++ [[wRec, wRec]])) = [[wRec]] ++ [[wRec, wRec]] ∧
    ([] : Snapshot) ∉ appendAll 2 [] (([] : Snapshot) :: ([[wRec]] ++ [[wRec, wRec]])) ∧
    ([wRec, wRec] : Snapshot) ∈ appendAll 2 [] (([] : Snapshot) :: ([[wRec]] ++ [[wRec, wRec]])) :=
  history_window_capacity_fifo 2 [] [wRec, wRec] [[wRec]] (by decide) (by decide) (by decide)

/-- C2 amended: whenever train_model reports failure (returns false), the
trained flag and the calibrated threshold are untouched, as are the history
and its capacity; the scaler and autoencoder fields, however, are not
covered — a failure after the scaler refit (see the counterexample) leaves
them already replaced. -/
theorem train_failure_preserves_flag_and_threshold
    (env : TrainEnv) (st st' : AdvancedAnomalyDetector)
    (h : train_model env st = .ok (st', false)) :
    st'.is_trained = st.is_trained ∧
    st'.reconstruction_threshold = st.reconstruction_threshold ∧
    st'.process_history = st.process_history ∧
    st'.history_size = st.history_size := by
  unfold train_model at h
  cases hp : prepare_training_data st with
  | error e =>
    rw [hp, except_bind_error] at h
    exact absurd h (by simp)
  | ok dataOpt =>
    rw [hp, except_bind_ok] at h
    split at h
    · simp only [except_pure, Except.ok.injEq, Prod.mk.injEq] at h
      obtain ⟨hst, -⟩ := h
      subst hst
      exact ⟨rfl, rfl, rfl, rfl⟩
    · rename_i data
      split at h
      · simp only [except_pure, Except.ok.injEq, Prod.mk.injEq] at h
        obtain ⟨hst, -⟩ := h
        subst hst
        exact ⟨rfl, rfl, rfl, rfl⟩
      · simp only [except_pure, Except.ok.injEq] at h
        unfold trainTry at h
        split at h
        · simp only [Prod.mk.injEq] at h
          obtain ⟨hst, -⟩ := h
          subst hst
          exact ⟨rfl, rfl, rfl, rfl⟩
        · rename_i sc hsc
          try dsimp only at h
          split at h
          · simp only [Prod.mk.injEq] at h
            obtain ⟨hst, -⟩ := h
            subst hst
            exact ⟨rfl, rfl, rfl, rfl⟩
          · rename_i ae hae
            try dsimp only at h
            split at h
            · simp only [Prod.mk.injEq] at h
              obtain ⟨hst, -⟩ := h
              subst hst
              exact ⟨rfl, rfl, rfl, rfl⟩
            · simp only [Prod.mk.injEq] at h
              exact absurd h.2 (by simp)

/-- C5: after every successful train_model call, the stored threshold is
the 95th percentile (numpy linear interpolation) of the per-row mean
squared errors between the standardized training corpus and the trained
model's reconstruction of that same corpus, under the scaler and model the
call just installed. -/
theorem train_success_threshold_is_p95
    (env : TrainEnv) (st st' : AdvancedAnomalyDetector)
    (h : train_model env st = .ok (st', true)) :
    ∃ data ae, prepare_training_data st = .ok (some data) ∧
      st'.is_trained = true ∧ st'.autoencoder = some ae ∧
      st'.reconstruction_threshold =
        some (np_percentile (reconstructionErrors st'.scaler ae data) 95) := by
  unfold train_model at h
  cases hp : prepare_training_data st with
  | error e =>
    rw [hp, except_bind_error] at h
    exact absurd h (by simp)
  | ok dataOpt =>
    rw [hp, except_bind_ok] at h
    split at h
    · simp only [except_pure, Except.ok.injEq, Prod.mk.injEq] at h
      exact absurd h.2 (by simp)
    · rename_i data
      split at h
      · simp only [except_pure, Except.ok.injEq, Prod.mk.injEq] at h
        exact absurd h.2 (by simp)
      · simp only [except_pure, Except.ok.injEq] at h
        unfold trainTry at h
        split at h
        · simp only [Prod.mk.injEq] at h
          exact absurd h.2 (by simp)
        · rename_i sc hsc
          try dsimp only at h
          split at h
          · simp only [Prod.mk.injEq] at h
            exact absurd h.2 (by simp)
          · rename_i ae hae
            try dsimp only at h
            split at h
            · simp only [Prod.mk.injEq] at h
              exact absurd h.2 (by simp)
            · simp only [Prod.mk.injEq] at h
              obtain ⟨hst, -⟩ := h
              subst hst
              exact ⟨data, ae, rfl, rfl, rfl, by simp [reconstructionErrors]⟩

/-- C6: when the flattened training corpus has fewer rows than the
configured history size (records assumed well-formed so the corpus is
defined), train_model returns false and the whole detector state is
returned unchanged; in particular an empty history gives None data and the
same outcome. -/
theorem train_insufficient_corpus_returns_false
    (env : TrainEnv) (st : AdvancedAnomalyDetector)
    (hc : ∀ s ∈ st.process_history, ∀ p ∈ s, hasAllFields p = true)
    (hlen : st.process_history.flatten.length < st.history_size) :
    train_model env st = .ok (st, false) := by
  unfold train_model prepare_training_data
  by_cases he : st.process_history.isEmpty
  · rw [if_pos he]
    rfl
  · rw [if_neg he]
    have hall : ∀ p ∈ st.process_history.flatten, hasAllFields p = true := by
      intro p hp
      obtain ⟨s, hs, hps⟩ := List.mem_flatten.mp hp
      exact hc s hs p hps
    rw [rowsOf_complete _ hall, except_bind_ok, except_pure, except_bind_ok]
    dsimp only
    rw [if_pos (by rw [List.length_map]; exact hlen)]
    rfl

/-- C3 amended: when every record in every retained snapshot carries all
five numeric fields, train_model never propagates an exception — every
outcome is a plain boolean result. A history containing a record with a
missing field, by contrast, makes the call raise KeyError from
prepare_training_data, which runs before the try-block (see the
counterexample). -/
theorem train_returns_bool_on_complete_history
    (env : TrainEnv) (st : AdvancedAnomalyDetector)
    (hc : ∀ s ∈ st.process_history, ∀ p ∈ s, hasAllFields p = true) :
    ∃ r, train_model env st = .ok r := by
  unfold train_model prepare_training_data
  by_cases he : st.process_history.isEmpty
  · exact ⟨(st, false), by rw [if_pos he]; rfl⟩
  · have hall : ∀ p ∈ st.process_history.flatten, hasAllFields p = true := by
      intro p hp
      obtain ⟨s, hs, hps⟩ := List.mem_flatten.mp hp
      exact hc s hs p hps
    rw [if_neg he, rowsOf_complete _ hall, except_bind_ok, except_pure, except_bind_ok]
    dsimp only
    split
    · exact ⟨(st, false), rfl⟩
    · exact ⟨trainTry env st (st.process_history.flatten.map extractSpec), rfl⟩

/-- C4 amended: the extraction performed by the source succeeds exactly on
records that carry all five numeric fields, and then yields precisely
[cpu_percent, memory_percent, num_threads, num_connections, num_files]; a
record with a missing field makes extraction raise KeyError instead of
defaulting the entry to 0. -/
theorem extractFeatures_ok_iff (p : ProcRecord) (v : Vec5) :
    extractFeatures p = .ok v ↔
      (p.cpu_percent = some v.x0 ∧ p.memory_percent = some v.x1 ∧
       p.num_threads = some v.x2 ∧ p.num_connections = some v.x3 ∧
       p.num_files = some v.x4) := by
  obtain ⟨pid, nm, c, m, t, n, f, r⟩ := p
  obtain ⟨v0, v1, v2, v3, v4⟩ := v
  cases c <;> cases m <;> cases t <;> cases n <;> cases f <;>
    simp [extractFeatures, and_assoc, eq_comm]

/-- C4 counterexample: on a record whose cpu_percent key is absent, the
source's extraction raises KeyError; it does not return the spec's
default-to-0 vector. -/
theorem extractFeatures_no_default_counterexample :
    extractFeatures recNoCpu ≠ .ok (extractSpec recNoCpu) := by decide

/-- C9: on a record carrying the five numeric fields, get_anomaly_reason
returns exactly the rule-table reason described by the spec: the texts of
all independently holding rules joined by ", " in the fixed order cpu,
memory, connections, threads, files, and "Unusual behavior pattern" when
none holds. -/
theorem reason_matches_rule_table (p : ProcRecord) (c m t n f : ℚ)
    (h1 : p.cpu_percent = some c) (h2 : p.memory_percent = some m)
    (h3 : p.num_threads = some t) (h4 : p.num_connections = some n)
    (h5 : p.num_files = some f) :
    get_anomaly_reason p = .ok (explainSpec c m n t f) := by
  obtain ⟨pid, nm, c0, m0, t0, n0, f0, r⟩ := p
  dsimp only at h1 h2 h3 h4 h5
  subst h1 h2 h3 h4 h5
  unfold get_anomaly_reason explainSpec specRules
  by_cases hc : c > 80 <;> by_cases hm : m > 80 <;> by_cases hn : n > 50 <;>
    by_cases ht : t > 100 <;> by_cases hf : f > 100 <;>
      simp [hc, hm, hn, ht, hf]

theorem detect_flags_witness :
    (∀ p ∈ [coldRec, hotRec], hasAllFields p = true) ∧
    (detect_anomalies trainedSt [coldRec, hotRec]).map eraseReason =
      ([coldRec, hotRec].filter (fun p =>
        decide (recordError trainedSt.scaler aeZero (extractSpec p) > 1))).map eraseReason :=
  ⟨by decide, detect_flags_exactly_errors_above_threshold trainedSt aeZero 1
    [coldRec, hotRec] rfl rfl rfl (by decide)⟩

/-- C2 counterexample: a training run on a one-record history in which the
scaler refit succeeds and the autoencoder fit then fails returns false, yet
the detector's scaler has already been replaced (and a fresh model object
installed): the Scaler+Model+Threshold triple is not rolled back as a
unit. -/
theorem train_failure_partial_update_counterexample :
    train_model cexEnv cexSt = .ok (cexStAfter, false) ∧
    cexStAfter.scaler ≠ cexSt.scaler :=
  ⟨rfl, by decide⟩

theorem train_failure_preserves_witness :
    cexStAfter.is_trained = cexSt.is_trained ∧
    cexStAfter.reconstruction_threshold = cexSt.reconstruction_threshold ∧
    cexStAfter.process_history = cexSt.process_history ∧
    cexStAfter.history_size = cexSt.history_size :=
  train_failure_preserves_flag_and_threshold cexEnv cexSt cexStAfter rfl

/-- C3 counterexample: a history holding one record without a cpu_percent
key makes train_model raise KeyError to its caller — the failure is not
converted into a boolean false, because prepare_training_data runs before
the try-block. -/
theorem train_raises_keyerror_counterexample :
    train_model cexEnv cexSt3 = .error .keyError := rfl

theorem train_returns_bool_witness :
    ∃ r, train_model okEnv cexSt = .ok r :=
  train_returns_bool_on_complete_history okEnv cexSt (by decide)

theorem train_success_threshold_witness :
    ∃ data ae, prepare_training_data cexSt = .ok (some data) ∧
      okSt.is_trained = true ∧ okSt.autoencoder = some ae ∧
      okSt.reconstruction_threshold =
        some (np_percentile (reconstructionErrors okSt.scaler ae data) 95) :=
  train_success_threshold_is_p95 okEnv cexSt okSt rfl

theorem train_insufficient_witness :
    train_model okEnv emptySt = .ok (emptySt, false) :=
  train_insufficient_corpus_returns_false okEnv emptySt (by decide) (by decide)

theorem detect_untrained_witness :
    detect_anomalies cexSt [wRec, recNoCpu] = [] :=
  detect_untrained_returns_empty cexSt [wRec, recNoCpu] rfl

theorem reason_rule_table_witness :
    get_anomaly_reason scenarioD = .ok (explainSpec 95 90 60 2 3) ∧
    explainSpec 95 90 60 2 3 =
      "High CPU usage, High memory usage, Unusual network activity" :=
  ⟨reason_matches_rule_table scenarioD 95 90 2 60 3 rfl rfl rfl rfl rfl, by decide⟩
